import Mathlib

/-!
# SkillArena — verification of the vote ledger, score aggregator, upload gate
and trim-progress reporting

Shallow embedding of the server storage layer (`src/server/storage.ts`,
class `MemStorage`), the route policies (`src/server/routes.ts`) and the
client trim workflow's progress reporting (`src/client/src/lib/ffmpeg.ts`).

Modelling conventions:
* A JavaScript `Map` iterated with `Array.from(map.values())` yields entries
  in insertion order; we model each `Map<string, T>` as a `List T` carrying
  its key (`id`) as a field.  `Map.set` with a key already present replaces
  that entry in place; with a fresh key it appends.  Keys are unique in a
  `Map`, so "replace the entry with this key" is modelled as replace-first.
* Timestamps (`Date`) are integers: milliseconds on the local clock.
  `Date` day arithmetic (`setDate`, `setHours(0,0,0,0)`, `getDay`) is
  modelled on a uniform local clock (no DST discontinuities), with day
  boundaries every 86400000 ms and day 0 (1970-01-01) a Thursday, as in
  JavaScript for a UTC clock.
* Fallible steps (zod schema parse, persistence) are explicit: the parse
  returns an `Option`, persistence success is a boolean parameter.
-/

namespace SkillArena

/-- The three vote kinds of `votes.voteType` (`src/shared/schema.ts`). -/
inductive VoteType where
  | like
  | dislike
  | wow
deriving DecidableEq, Repr

/-- A row of the `votes` table / an entry of `MemStorage.votes`
(`createdAt` is never read by the operations verified here and is omitted). -/
structure Vote where
  id : String
  userId : String
  videoId : String
  voteType : VoteType
deriving DecidableEq, Repr

/-- The map `MemStorage.votes`, a `Map<string, Vote>` in insertion order. -/
abbrev VoteStore := List Vote

/-- The predicate both `getUserVote` and `deleteVote` filter with:
`vote.userId === userId && vote.videoId === videoId`. -/
def matchesPair (u vid : String) (w : Vote) : Bool :=
  w.userId == u && w.videoId == vid

/-- Embeds `MemStorage.getUserVote`: first stored vote matching the pair. -/
def getUserVote (s : VoteStore) (u vid : String) : Option Vote :=
  s.find? (matchesPair u vid)

/-- Embeds `MemStorage.deleteVote`: find the first stored vote matching
(userId, videoId) and delete that map entry (keys are unique, so deleting
the found entry by key erases the first match). -/
def deleteVote (s : VoteStore) (u vid : String) : VoteStore :=
  s.eraseP (matchesPair u vid)

/-- Embeds `Map.set(id, v)`: replace the entry with key `v.id` if present
(keys are unique), else append. -/
def setVote : VoteStore → Vote → VoteStore
  | [], v => [v]
  | w :: s, v => if w.id == v.id then v :: s else w :: setVote s v

/-- Embeds `MemStorage.createVote`: build a vote with a fresh random id, remove any
existing vote from this user for this video, then insert. -/
def createVote (s : VoteStore) (u vid : String) (t : VoteType) (newId : String) :
    Vote × VoteStore :=
  let newVote : Vote := ⟨newId, u, vid, t⟩
  (newVote, setVote (deleteVote s u vid) newVote)

/-- Embeds `MemStorage.updateVote`: delete then create. -/
def updateVote (s : VoteStore) (u vid : String) (t : VoteType) (newId : String) :
    Vote × VoteStore :=
  createVote (deleteVote s u vid) u vid t newId

/-- The `POST /api/videos/:videoId/vote` policy (`src/server/routes.ts`):
toggle off on same type, update on different type, create when absent.
Returns the `vote` field of the response (null on retraction) and the
resulting store. -/
def castVote (s : VoteStore) (u vid : String) (t : VoteType) (newId : String) :
    Option Vote × VoteStore :=
  match getUserVote s u vid with
  | some existing =>
    if existing.voteType = t then
      (none, deleteVote s u vid)
    else
      let r := updateVote s u vid t newId
      (some r.1, r.2)
  | none =>
    let r := createVote s u vid t newId
    (some r.1, r.2)

/-- Number of stored votes for a (userId, videoId) pair. -/
def countPair (s : VoteStore) (u vid : String) : Nat :=
  (s.filter (matchesPair u vid)).length

/-- A sequence of casts through the vote endpoint by one (userId, videoId)
pair; each operation carries the vote type and the fresh id `randomUUID`
would produce. -/
def castVotes (s : VoteStore) (u vid : String) (ops : List (VoteType × String)) :
    VoteStore :=
  ops.foldl (fun st op => (castVote st u vid op.1 op.2).2) s

/-- The raw `IStorage` vote primitives, invokable in any order by any caller
(no policy layer). -/
inductive RawOp where
  | create (u vid : String) (t : VoteType) (newId : String)
  | update (u vid : String) (t : VoteType) (newId : String)
  | delete (u vid : String)
deriving DecidableEq, Repr

/-- Apply one raw primitive to the store, discarding the returned vote. -/
def applyRawOp (s : VoteStore) : RawOp → VoteStore
  | .create u vid t newId => (createVote s u vid t newId).2
  | .update u vid t newId => (updateVote s u vid t newId).2
  | .delete u vid => deleteVote s u vid

/-- Run a sequence of raw primitives from the empty store (a fresh
`MemStorage` starts with empty maps). -/
def runRawOps (ops : List RawOp) : VoteStore :=
  ops.foldl applyRawOp []

/-! ## Counting lemmas for the vote ledger -/

theorem length_filter_eraseP {α : Type} (p : α → Bool) (s : List α) :
    ((s.eraseP p).filter p).length = (s.filter p).length - 1 := by
  induction s with
  | nil => simp
  | cons a s ih =>
    by_cases h : p a
    · simp [List.eraseP_cons, List.filter_cons, h]
    · simp [List.eraseP_cons, List.filter_cons, h, ih]

theorem countPair_deleteVote_self (s : VoteStore) (u vid : String) :
    countPair (deleteVote s u vid) u vid = countPair s u vid - 1 :=
  length_filter_eraseP (matchesPair u vid) s

theorem countPair_deleteVote_le (s : VoteStore) (u vid u' vid' : String) :
    countPair (deleteVote s u' vid') u vid ≤ countPair s u vid := by
  exact List.Sublist.length_le
    (List.Sublist.filter (matchesPair u vid) (List.eraseP_sublist s))

theorem countPair_eq_zero_of_getUserVote_eq_none {s : VoteStore} {u vid : String}
    (h : getUserVote s u vid = none) : countPair s u vid = 0 := by
  rw [countPair, List.length_eq_zero, List.filter_eq_nil_iff]
  intro a ha
  exact List.find?_eq_none.mp h a ha

theorem getUserVote_eq_none_of_countPair_eq_zero {s : VoteStore} {u vid : String}
    (h : countPair s u vid = 0) : getUserVote s u vid = none := by
  rw [countPair, List.length_eq_zero, List.filter_eq_nil_iff] at h
  exact List.find?_eq_none.mpr h

theorem countPair_cons_eq_zero {w : Vote} {s : VoteStore} {u vid : String}
    (h : countPair (w :: s) u vid = 0) :
    matchesPair u vid w = false ∧ countPair s u vid = 0 := by
  rw [countPair, List.filter_cons] at h
  by_cases hw : matchesPair u vid w
  · simp [hw] at h
  · exact ⟨by simp [hw], by simpa [hw, countPair] using h⟩

theorem countPair_setVote_of_zero {s : VoteStore} {u vid : String} (v : Vote)
    (h : countPair s u vid = 0) :
    countPair (setVote s v) u vid = if matchesPair u vid v then 1 else 0 := by
  induction s with
  | nil =>
    by_cases hv : matchesPair u vid v <;> simp [setVote, countPair, List.filter, hv]
  | cons w s ih =>
    obtain ⟨hw, hs⟩ := countPair_cons_eq_zero h
    rw [setVote]
    by_cases hid : w.id == v.id
    · simp only [hid, if_true]
      have hs' : (List.filter (matchesPair u vid) s).length = 0 := hs
      by_cases hv : matchesPair u vid v <;>
        simp [countPair, List.filter_cons, hv, hs']
    · simp only [hid, Bool.false_eq_true, if_false]
      have := ih hs
      simp [countPair, List.filter_cons, hw] at this ⊢
      exact this

theorem countPair_setVote_le_of_not_match {s : VoteStore} {u vid : String} {v : Vote}
    (hv : matchesPair u vid v = false) :
    countPair (setVote s v) u vid ≤ countPair s u vid := by
  induction s with
  | nil => simp [setVote, countPair, List.filter, hv]
  | cons w s ih =>
    rw [setVote]
    by_cases hid : w.id == v.id
    · simp only [hid, if_true]
      simp only [countPair, List.filter_cons, hv, Bool.false_eq_true, if_false]
      by_cases hw : matchesPair u vid w <;> simp [hw]
    · simp only [hid, Bool.false_eq_true, if_false]
      simp only [countPair, List.filter_cons] at ih ⊢
      by_cases hw : matchesPair u vid w <;> simp [hw] <;> omega

theorem getUserVote_setVote_of_zero {s : VoteStore} {u vid : String} (v : Vote)
    (h : countPair s u vid = 0) :
    getUserVote (setVote s v) u vid = if matchesPair u vid v then some v else none := by
  induction s with
  | nil =>
    by_cases hv : matchesPair u vid v <;> simp [setVote, getUserVote, List.find?, hv]
  | cons w s ih =>
    obtain ⟨hw, hs⟩ := countPair_cons_eq_zero h
    rw [setVote]
    by_cases hid : w.id == v.id
    · simp only [hid, if_true]
      have hnone : getUserVote s u vid = none :=
        getUserVote_eq_none_of_countPair_eq_zero hs
      simp only [getUserVote] at hnone
      by_cases hv : matchesPair u vid v <;>
        simp [getUserVote, List.find?_cons, hv, hnone]
    · simp only [hid, Bool.false_eq_true, if_false]
      have := ih hs
      simp only [getUserVote] at this ⊢
      simp [List.find?_cons, hw, this]

theorem matchesPair_self (u vid : String) (t : VoteType) (newId : String) :
    matchesPair u vid ⟨newId, u, vid, t⟩ = true := by
  simp [matchesPair]

/-- After `createVote` from a state with no vote for the pair, exactly one
vote for the pair exists and `getUserVote` returns the new vote. -/
theorem createVote_from_zero {s : VoteStore} {u vid : String}
    (t : VoteType) (newId : String) (h : countPair s u vid = 0) :
    countPair (createVote s u vid t newId).2 u vid = 1 ∧
    getUserVote (createVote s u vid t newId).2 u vid = some ⟨newId, u, vid, t⟩ := by
  have hz : countPair (deleteVote s u vid) u vid = 0 := by
    rw [countPair_deleteVote_self, h]
  constructor
  · rw [createVote]
    rw [countPair_setVote_of_zero _ hz, matchesPair_self]
    simp
  · rw [createVote]
    rw [getUserVote_setVote_of_zero _ hz, matchesPair_self]
    simp

/-- One cast through the endpoint keeps at most one vote for the pair. -/
theorem castVote_preserves_invariant {s : VoteStore} {u vid : String}
    (t : VoteType) (newId : String) (h : countPair s u vid ≤ 1) :
    countPair (castVote s u vid t newId).2 u vid ≤ 1 := by
  rw [castVote]
  cases hev : getUserVote s u vid with
  | none =>
    have hz := countPair_eq_zero_of_getUserVote_eq_none hev
    simp only []
    exact le_of_eq (createVote_from_zero t newId hz).1
  | some existing =>
    by_cases ht : existing.voteType = t
    · simp only [ht, if_true]
      rw [countPair_deleteVote_self]
      omega
    · simp only [ht, if_false]
      have h1 : countPair (deleteVote s u vid) u vid = 0 := by
        rw [countPair_deleteVote_self]; omega
      exact le_of_eq (createVote_from_zero t newId h1).1

/-! ## C1: at-most-one vote per pair through the endpoint -/

/-- C1: For every sequence of vote operations performed through the vote
endpoint by the same (userId, videoId) pair, starting from a store holding at
most one vote for that pair, at most one vote row exists for the pair after
the sequence — and hence after each intermediate operation, since every
prefix of the sequence is itself such a sequence. -/
theorem c1_castVote_at_most_one (s : VoteStore) (u vid : String)
    (ops : List (VoteType × String)) (h : countPair s u vid ≤ 1) :
    countPair (castVotes s u vid ops) u vid ≤ 1 := by
  induction ops generalizing s with
  | nil => exact h
  | cons op ops ih =>
    rw [castVotes, List.foldl_cons]
    exact ih _ (castVote_preserves_invariant op.1 op.2 h)

theorem c1_witness :
    countPair ([] : VoteStore) "alice" "video1" ≤ 1 ∧
    countPair (castVotes [] "alice" "video1"
        [(VoteType.like, "i1"), (VoteType.like, "i2"), (VoteType.wow, "i3")])
      "alice" "video1" ≤ 1 :=
  ⟨by decide, c1_castVote_at_most_one [] "alice" "video1"
    [(VoteType.like, "i1"), (VoteType.like, "i2"), (VoteType.wow, "i3")] (by decide)⟩

/-! ## C2: toggle idempotence -/

/-- Evaluation of `castVote` when no vote exists for the pair: the create branch. -/
theorem castVote_of_none {s : VoteStore} {u vid : String} (t : VoteType)
    (newId : String) (h : getUserVote s u vid = none) :
    castVote s u vid t newId
      = (some ⟨newId, u, vid, t⟩, (createVote s u vid t newId).2) := by
  simp only [castVote, h]
  rfl

/-- Evaluation of `castVote` when a vote of the same type exists: the retraction branch. -/
theorem castVote_of_some_same {s : VoteStore} {u vid : String} {v : Vote}
    {t : VoteType} (newId : String) (h : getUserVote s u vid = some v)
    (ht : v.voteType = t) :
    castVote s u vid t newId = (none, deleteVote s u vid) := by
  simp [castVote, h, ht]

/-- C2: Starting from no existing vote for (userId, videoId): the first
cast creates the vote, a second cast of the same voteType retracts it (the
response vote is null and zero votes remain for the pair), and a third
identical cast re-creates it. -/
theorem c2_toggle_idempotence (s : VoteStore) (u vid : String) (t : VoteType)
    (id1 id2 id3 : String) (h : getUserVote s u vid = none) :
    (castVote s u vid t id1).1 = some ⟨id1, u, vid, t⟩ ∧
    countPair (castVote s u vid t id1).2 u vid = 1 ∧
    (castVote (castVote s u vid t id1).2 u vid t id2).1 = none ∧
    countPair (castVote (castVote s u vid t id1).2 u vid t id2).2 u vid = 0 ∧
    (castVote (castVote (castVote s u vid t id1).2 u vid t id2).2
        u vid t id3).1 = some ⟨id3, u, vid, t⟩ ∧
    countPair (castVote (castVote (castVote s u vid t id1).2 u vid t id2).2
        u vid t id3).2 u vid = 1 := by
  have hz : countPair s u vid = 0 := countPair_eq_zero_of_getUserVote_eq_none h
  have hc1 := createVote_from_zero (s := s) t id1 hz
  rw [castVote_of_none t id1 h]
  dsimp only
  rw [castVote_of_some_same id2 hc1.2 rfl]
  dsimp only
  have h2 : countPair (deleteVote (createVote s u vid t id1).2 u vid) u vid = 0 := by
    rw [countPair_deleteVote_self, hc1.1]
  have hn2 := getUserVote_eq_none_of_countPair_eq_zero h2
  rw [castVote_of_none t id3 hn2]
  dsimp only
  have hc3 := createVote_from_zero
    (s := deleteVote (createVote s u vid t id1).2 u vid) t id3 h2
  exact ⟨rfl, hc1.1, rfl, h2, rfl, hc3.1⟩

theorem c2_witness :
    getUserVote ([] : VoteStore) "bob" "v1" = none ∧
    countPair (castVote (castVote ([] : VoteStore) "bob" "v1" VoteType.like "i1").2
        "bob" "v1" VoteType.like "i2").2 "bob" "v1" = 0 :=
  ⟨by decide,
    (c2_toggle_idempotence [] "bob" "v1" VoteType.like "i1" "i2" "i3" (by decide)).2.2.2.1⟩

/-! ## C9: at-most-one vote per pair from the raw primitives alone -/

/-- Every (userId, videoId) pair has at most one stored vote. -/
def atMostOnePerPair (s : VoteStore) : Prop :=
  ∀ u vid, countPair s u vid ≤ 1

theorem createVote_preserves_atMostOne {s : VoteStore} (u vid : String)
    (t : VoteType) (newId : String) (h : atMostOnePerPair s) :
    atMostOnePerPair (createVote s u vid t newId).2 := by
  intro u' vid'
  rw [createVote]
  by_cases hp : u' = u ∧ vid' = vid
  · obtain ⟨rfl, rfl⟩ := hp
    have hz : countPair (deleteVote s u' vid') u' vid' = 0 := by
      have := h u' vid'
      rw [countPair_deleteVote_self]
      omega
    rw [countPair_setVote_of_zero _ hz, matchesPair_self]
    simp
  · have hm : matchesPair u' vid' ⟨newId, u, vid, t⟩ = false := by
      simp only [matchesPair]
      rcases not_and_or.mp hp with h' | h'
      · have : (u == u') = false := by
          simp [beq_eq_false_iff_ne]
          exact fun hc => h' hc.symm
        simp [this]
      · have : (vid == vid') = false := by
          simp [beq_eq_false_iff_ne]
          exact fun hc => h' hc.symm
        simp [this]
    calc countPair (setVote (deleteVote s u vid) ⟨newId, u, vid, t⟩) u' vid'
        ≤ countPair (deleteVote s u vid) u' vid' :=
          countPair_setVote_le_of_not_match hm
      _ ≤ countPair s u' vid' := countPair_deleteVote_le s u' vid' u vid
      _ ≤ 1 := h u' vid'

theorem applyRawOp_preserves_atMostOne {s : VoteStore} (op : RawOp)
    (h : atMostOnePerPair s) : atMostOnePerPair (applyRawOp s op) := by
  cases op with
  | create u vid t newId =>
    exact createVote_preserves_atMostOne u vid t newId h
  | update u vid t newId =>
    have hd : atMostOnePerPair (deleteVote s u vid) := fun u' vid' =>
      le_trans (countPair_deleteVote_le s u' vid' u vid) (h u' vid')
    simp only [applyRawOp, updateVote]
    exact createVote_preserves_atMostOne u vid t newId hd
  | delete u vid =>
    intro u' vid'
    exact le_trans (countPair_deleteVote_le s u' vid' u vid) (h u' vid')

theorem foldl_rawOps_preserves_atMostOne (ops : List RawOp) (s : VoteStore)
    (h : atMostOnePerPair s) : atMostOnePerPair (ops.foldl applyRawOp s) := by
  induction ops generalizing s with
  | nil => exact h
  | cons op ops ih =>
    rw [List.foldl_cons]
    exact ih _ (applyRawOp_preserves_atMostOne op h)

/-- C9: the primitive `createVote` itself removes any existing vote for the same
(userId, videoId) before inserting, so after any sequence of the raw
`IStorage` vote primitives (create, update, delete) from the initial empty
store — with no policy-layer existing-vote check — at most one vote exists
for every pair. -/
theorem c9_raw_primitives_at_most_one (ops : List RawOp) (u vid : String) :
    countPair (runRawOps ops) u vid ≤ 1 := by
  have h0 : atMostOnePerPair ([] : VoteStore) := by
    intro u' vid'
    simp [countPair, List.filter]
  exact foldl_rawOps_preserves_atMostOne ops [] h0 u vid

/-! ## Data model: users, videos, store state -/

/-- A row of the `users` table (`password` and `createdAt` are never read by
the verified operations and are omitted). -/
structure User where
  id : String
  username : String
deriving DecidableEq, Repr

/-- A row of the `videos` table; `createdAt` is milliseconds on the local
clock (`Date.getTime()`). -/
structure Video where
  id : String
  userId : String
  filename : String
  originalName : String
  duration : Int
  size : Int
  skillCategory : String
  description : Option String
  createdAt : Int
deriving DecidableEq, Repr

/-- The `MemStorage` maps, each in insertion order. -/
structure StoreState where
  users : List User
  videos : List Video
  votes : VoteStore
deriving DecidableEq, Repr

/-- Embeds `MemStorage.getUser`: `Map.get` by id (keys unique). -/
def getUser (st : StoreState) (id : String) : Option User :=
  st.users.find? (fun u => u.id == id)

/-- The result shape of `MemStorage.getVideoVotes`. -/
structure Tallies where
  likes : Nat
  dislikes : Nat
  wows : Nat
deriving DecidableEq, Repr

/-- Embeds `MemStorage.getVideoVotes`: filter this video's votes, count each type. -/
def getVideoVotes (s : VoteStore) (vid : String) : Tallies :=
  let videoVotes := s.filter (fun w => w.videoId == vid)
  { likes := (videoVotes.filter (fun w => w.voteType == VoteType.like)).length
    dislikes := (videoVotes.filter (fun w => w.voteType == VoteType.dislike)).length
    wows := (videoVotes.filter (fun w => w.voteType == VoteType.wow)).length }

/-- The derived video score `likes + wows - dislikes`, a signed integer. -/
def scoreOf (t : Tallies) : Int :=
  (t.likes : Int) + (t.wows : Int) - (t.dislikes : Int)

/-- JavaScript `a || b` on strings: `b` when `a` is falsy (empty). -/
def orElseStr (a b : String) : String :=
  if a = "" then b else a

/-- One element of the `GET /api/videos` feed. -/
structure FeedEntry where
  video : Video
  username : String
  likes : Nat
  dislikes : Nat
  wows : Nat
  score : Int
deriving DecidableEq, Repr

/-- The enrichment step of `MemStorage.getVideos` for one video:
`username = user?.username || 'Unknown'`, tallies, and the derived score. -/
def feedEntryOf (st : StoreState) (v : Video) : FeedEntry :=
  let user := getUser st v.userId
  let votes := getVideoVotes st.votes v.id
  { video := v
    username := orElseStr ((user.map User.username).getD "") "Unknown"
    likes := votes.likes
    dislikes := votes.dislikes
    wows := votes.wows
    score := scoreOf votes }

/-- Embeds `MemStorage.getVideos`: enrich every stored video, then
`sort((a, b) => b.createdAt - a.createdAt)` — newest first; JavaScript sort
is stable, modelled with the stable `List.insertionSort`. -/
def getVideos (st : StoreState) : List FeedEntry :=
  (st.videos.map (feedEntryOf st)).insertionSort
    (fun a b => b.video.createdAt ≤ a.video.createdAt)

/-! ## Local-clock day arithmetic

`Date` day arithmetic on a uniform local clock: day boundaries every
86400000 ms, day 0 (1970-01-01) a Thursday. `setDate` accepts out-of-range
day-of-month values and rolls them over month boundaries, so
`setDate(getDate() - getDay() + 1)` followed by `setHours(0,0,0,0)` is
midnight of `dayNumber - dayOfWeek + 1`. -/

/-- Milliseconds per local day. -/
def msPerDay : Int := 86400000

/-- The local day number of a timestamp (floor division). -/
def dayNumber (t : Int) : Int := Int.fdiv t msPerDay

/-- JavaScript `Date.getDay()`: 0 = Sunday, …, 6 = Saturday. -/
def dayOfWeek (t : Int) : Int := Int.emod (dayNumber t + 4) 7

/-- The week start computed by `getWeeklyLeaderboard`:
`startOfWeek.setDate(now.getDate() - now.getDay() + 1)` then
`setHours(0, 0, 0, 0)`. -/
def startOfWeek (now : Int) : Int :=
  (dayNumber now - dayOfWeek now + 1) * msPerDay

/-- Modelled from the spec: "Weekly window: Monday 00:00:00 (local) through
the following Sunday 23:59:59.999" — midnight of the Monday of the week
containing `now`, a week running Monday through Sunday. -/
def specWeekStart (now : Int) : Int :=
  (dayNumber now - Int.emod (dayOfWeek now + 6) 7) * msPerDay

/-! ## Weekly leaderboard -/

/-- A value of the `userScores` map in `getWeeklyLeaderboard`. -/
structure Agg where
  username : String
  userId : String
  skillCategory : String
  totalScore : Int
  totalVotes : Nat
deriving DecidableEq, Repr

/-- A leaderboard entry: an aggregate plus its 1-indexed rank. -/
structure LBEntry extends Agg where
  rank : Nat
deriving DecidableEq, Repr

/-- This week's videos: `new Date(video.createdAt) >= startOfWeek`. -/
def weeklyVideos (st : StoreState) (now : Int) : List Video :=
  st.videos.filter (fun v => decide (startOfWeek now ≤ v.createdAt))

/-- One iteration of the aggregation loop in `getWeeklyLeaderboard`: videos
whose owner is missing are skipped; otherwise the video's score and vote
count are added to the owner's aggregate (the `userScores` map is keyed by
userId, created on first sight in insertion order, mutated in place after). -/
def accumVideo (st : StoreState) (acc : List Agg) (v : Video) : List Agg :=
  match getUser st v.userId with
  | none => acc
  | some user =>
    let t := getVideoVotes st.votes v.id
    let sc := scoreOf t
    let tv := t.likes + t.dislikes + t.wows
    if acc.any (fun a => a.userId == v.userId) then
      acc.map (fun a =>
        if a.userId == v.userId then
          { a with totalScore := a.totalScore + sc, totalVotes := a.totalVotes + tv }
        else a)
    else
      acc ++ [{ username := user.username, userId := v.userId,
                skillCategory := v.skillCategory, totalScore := sc,
                totalVotes := tv }]

/-- The `userScores` values after the aggregation loop, in insertion order. -/
def weeklyAggregates (st : StoreState) (now : Int) : List Agg :=
  (weeklyVideos st now).foldl (accumVideo st) []

/-- The aggregates sorted by `(a, b) => b.totalScore - a.totalScore`
(descending; JavaScript sort is stable, modelled with the stable
`List.insertionSort`). -/
def sortedWeeklyAggregates (st : StoreState) (now : Int) : List Agg :=
  (weeklyAggregates st now).insertionSort (fun a b => b.totalScore ≤ a.totalScore)

/-- Embeds `MemStorage.getWeeklyLeaderboard`: aggregate this week's videos by
owner, sort by totalScore descending, attach `rank = index + 1`, then
`slice(0, 10)`. -/
def getWeeklyLeaderboard (st : StoreState) (now : Int) : List LBEntry :=
  (((sortedWeeklyAggregates st now).enum.map
    (fun p => { toAgg := p.2, rank := p.1 + 1 : LBEntry })).take 10)

/-! ## C7: feed ordered by createdAt descending -/

/-- C7: the feed returned by `getVideos` is ordered by `createdAt`
descending (newest first): consecutive entries are pairwise non-increasing
in `createdAt`, and the underlying video sequence equals the
createdAt-descending stable sort of the stored videos alone — a function
that never reads votes, so score does not affect feed order. -/
theorem c7_feed_ordered_by_createdAt (st : StoreState) :
    List.Pairwise (fun a b : FeedEntry => b.video.createdAt ≤ a.video.createdAt)
      (getVideos st) ∧
    (getVideos st).map FeedEntry.video
      = st.videos.insertionSort (fun a b => b.createdAt ≤ a.createdAt) := by
  constructor
  · haveI : IsTotal FeedEntry (fun a b => b.video.createdAt ≤ a.video.createdAt) :=
      ⟨fun a b => le_total _ _⟩
    haveI : IsTrans FeedEntry (fun a b => b.video.createdAt ≤ a.video.createdAt) :=
      ⟨fun _ _ _ h1 h2 => le_trans h2 h1⟩
    exact List.sorted_insertionSort _ _
  · rw [getVideos, List.map_insertionSort
      (fun a b : FeedEntry => b.video.createdAt ≤ a.video.createdAt)
      (fun a b : Video => b.createdAt ≤ a.createdAt) FeedEntry.video
      (st.videos.map (feedEntryOf st))
      (fun a _ b _ => Iff.rfl)]
    rw [List.map_map]
    have h1 : (FeedEntry.video ∘ feedEntryOf st) = id := funext (fun v => rfl)
    rw [h1, List.map_id]

/-! ## C5: the feed's score formula -/

/-- C5: every feed entry's reported score equals
`likes + wows - dislikes` of that video's current tallies (a signed
integer, possibly negative); tallies (likes 3, dislikes 1, wows 2) give
score 4, tallies (likes 0, dislikes 3, wows 1) give score -2, and a video
with no votes has all-zero tallies. -/
theorem c5_feed_score (st : StoreState) :
    (∀ e ∈ getVideos st,
      e.likes = (getVideoVotes st.votes e.video.id).likes ∧
      e.dislikes = (getVideoVotes st.votes e.video.id).dislikes ∧
      e.wows = (getVideoVotes st.votes e.video.id).wows ∧
      e.score = scoreOf (getVideoVotes st.votes e.video.id)) ∧
    scoreOf ⟨3, 1, 2⟩ = 4 ∧
    scoreOf ⟨0, 3, 1⟩ = -2 ∧
    (∀ (s : VoteStore) (vid : String), (∀ w ∈ s, w.videoId ≠ vid) →
      getVideoVotes s vid = ⟨0, 0, 0⟩) := by
  refine ⟨?_, by decide, by decide, ?_⟩
  · intro e he
    rw [getVideos] at he
    have he2 := (List.perm_insertionSort
      (fun a b : FeedEntry => b.video.createdAt ≤ a.video.createdAt)
      (st.videos.map (feedEntryOf st))).mem_iff.mp he
    obtain ⟨v, hv, rfl⟩ := List.mem_map.mp he2
    exact ⟨rfl, rfl, rfl, rfl⟩
  · intro s vid hw
    have hnil : s.filter (fun w => w.videoId == vid) = [] :=
      List.filter_eq_nil_iff.mpr (fun w hm => by simpa using hw w hm)
    simp only [getVideoVotes, hnil]
    rfl

/-- A one-video store realising the spec's example tallies
(likes 3, dislikes 1, wows 2) for video "v1". -/
def c5Video : Video :=
  { id := "v1", userId := "u1", filename := "f.mp4", originalName := "o.mp4",
    duration := 5000, size := 1000, skillCategory := "juggling",
    description := none, createdAt := 0 }

def c5Store : StoreState :=
  { users := [⟨"u1", "ann"⟩]
    videos := [c5Video]
    votes := [⟨"x1", "a", "v1", VoteType.like⟩, ⟨"x2", "b", "v1", VoteType.like⟩,
              ⟨"x3", "c", "v1", VoteType.like⟩, ⟨"x4", "d", "v1", VoteType.dislike⟩,
              ⟨"x5", "e", "v1", VoteType.wow⟩, ⟨"x6", "f", "v1", VoteType.wow⟩] }

theorem c5_witness :
    (feedEntryOf c5Store c5Video ∈ getVideos c5Store) ∧
    (feedEntryOf c5Store c5Video).score
      = scoreOf (getVideoVotes c5Store.votes (feedEntryOf c5Store c5Video).video.id) ∧
    (∀ w ∈ c5Store.votes, w.videoId ≠ "nope") ∧
    getVideoVotes c5Store.votes "nope" = ⟨0, 0, 0⟩ :=
  ⟨by decide, ((c5_feed_score c5Store).1 _ (by decide)).2.2.2,
   by decide, (c5_feed_score c5Store).2.2.2 c5Store.votes "nope" (by decide)⟩

/-! ## C4: leaderboard sorting, ranking, truncation -/

theorem getWeeklyLeaderboard_length (st : StoreState) (now : Int) :
    (getWeeklyLeaderboard st now).length = min (weeklyAggregates st now).length 10 := by
  rw [getWeeklyLeaderboard, List.length_take, List.length_map, List.enum_length,
    sortedWeeklyAggregates, List.length_insertionSort]
  exact Nat.min_comm _ _

theorem getWeeklyLeaderboard_get (st : StoreState) (now : Int) (i : Nat)
    (h : i < (getWeeklyLeaderboard st now).length) :
    ∃ h' : i < (sortedWeeklyAggregates st now).length,
      (getWeeklyLeaderboard st now).get ⟨i, h⟩
        = { toAgg := (sortedWeeklyAggregates st now).get ⟨i, h'⟩, rank := i + 1 } := by
  have hlen : (getWeeklyLeaderboard st now).length
      = min (weeklyAggregates st now).length 10 := getWeeklyLeaderboard_length st now
  have hs : (sortedWeeklyAggregates st now).length = (weeklyAggregates st now).length := by
    rw [sortedWeeklyAggregates, List.length_insertionSort]
  have h' : i < (sortedWeeklyAggregates st now).length := by omega
  have h10 : i < 10 := by omega
  refine ⟨h', ?_⟩
  have hdef : getWeeklyLeaderboard st now
      = (((sortedWeeklyAggregates st now).enum.map
        (fun p => { toAgg := p.2, rank := p.1 + 1 : LBEntry })).take 10) := rfl
  have he : i < (sortedWeeklyAggregates st now).enum.length := by
    rw [List.enum_length]; exact h'
  rw [List.get_eq_getElem, List.getElem_of_eq hdef h, List.getElem_take,
    List.getElem_map, List.getElem_enum, List.get_eq_getElem]

/-- C4: the weekly leaderboard has `min (number of aggregated users) 10`
entries (truncation to the top 10), is sorted descending by `totalScore`,
and the entry at 0-based position `i` carries rank `i + 1` — so with at
least 10 aggregated users (e.g. 12 users with distinct in-window scores) it
has exactly 10 entries with ranks 1..10, rank 1 the highest totalScore. -/
theorem c4_leaderboard_ranking (st : StoreState) (now : Int) :
    (getWeeklyLeaderboard st now).length = min (weeklyAggregates st now).length 10 ∧
    List.Pairwise (fun a b : LBEntry => b.totalScore ≤ a.totalScore)
      (getWeeklyLeaderboard st now) ∧
    (∀ i, i < (getWeeklyLeaderboard st now).length →
      ((getWeeklyLeaderboard st now).get? i).map LBEntry.rank = some (i + 1)) := by
  refine ⟨getWeeklyLeaderboard_length st now, ?_, ?_⟩
  · haveI : IsTotal Agg (fun a b => b.totalScore ≤ a.totalScore) :=
      ⟨fun a b => le_total _ _⟩
    haveI : IsTrans Agg (fun a b => b.totalScore ≤ a.totalScore) :=
      ⟨fun _ _ _ h1 h2 => le_trans h2 h1⟩
    have hsorted : List.Pairwise (fun a b : Agg => b.totalScore ≤ a.totalScore)
        (sortedWeeklyAggregates st now) :=
      List.sorted_insertionSort _ _
    rw [List.pairwise_iff_getElem] at hsorted ⊢
    intro i j hi hj hij
    obtain ⟨hi', ei⟩ := getWeeklyLeaderboard_get st now i hi
    obtain ⟨hj', ej⟩ := getWeeklyLeaderboard_get st now j hj
    rw [List.get_eq_getElem] at ei ej
    rw [ei, ej]
    exact hsorted i j hi' hj' hij
  · intro i h
    rw [List.get?_eq_get h]
    obtain ⟨h', e⟩ := getWeeklyLeaderboard_get st now i h
    rw [e]
    rfl

/-- Twelve users "u0".."u11" for the truncation scenario. -/
def lbUsers : List User :=
  (List.range 12).map (fun i => ⟨"u" ++ toString i, "user" ++ toString i⟩)

/-- One video per user, all created this week. -/
def lbVideos : List Video :=
  (List.range 12).map (fun i =>
    { id := "v" ++ toString i, userId := "u" ++ toString i, filename := "f",
      originalName := "o", duration := 5000, size := 1, skillCategory := "s",
      description := none, createdAt := 4 * msPerDay })

/-- User i's video receives i likes, giving 12 distinct scores 0..11. -/
def lbVotes : VoteStore :=
  (List.range 12).flatMap (fun i =>
    (List.range i).map (fun j =>
      ⟨"x" ++ toString i ++ "_" ++ toString j, "w" ++ toString j,
       "v" ++ toString i, VoteType.like⟩))

def lbStore : StoreState := ⟨lbUsers, lbVideos, lbVotes⟩

/-- A query instant in the same week as the 12 videos. -/
def lbNow : Int := 4 * msPerDay + 1000

theorem c4_witness :
    (getWeeklyLeaderboard lbStore lbNow).length
      = min (weeklyAggregates lbStore lbNow).length 10 ∧
    9 < (getWeeklyLeaderboard lbStore lbNow).length ∧
    ((getWeeklyLeaderboard lbStore lbNow).get? 9).map LBEntry.rank = some (9 + 1) :=
  ⟨(c4_leaderboard_ranking lbStore lbNow).1, by decide,
   (c4_leaderboard_ranking lbStore lbNow).2.2 9 (by decide)⟩

/-! ## C3: the weekly window boundary -/

def c3User : User := ⟨"u1", "userone"⟩

/-- A video created exactly at Monday 1970-01-05 00:00:00.000 local time
(day 4). -/
def c3VideoMonday : Video :=
  { id := "v1", userId := "u1", filename := "f.mp4", originalName := "o.mp4",
    duration := 5000, size := 1000, skillCategory := "juggling",
    description := none, createdAt := 4 * msPerDay }

/-- A video created at the immediately preceding instant,
Sunday 1970-01-04 23:59:59.999. -/
def c3VideoSundayLate : Video :=
  { c3VideoMonday with id := "v2", createdAt := 4 * msPerDay - 1 }

def c3Store : StoreState := ⟨[c3User], [c3VideoMonday], []⟩

def c3StoreLate : StoreState := ⟨[c3User], [c3VideoSundayLate], []⟩

/-- Sunday 1970-01-11, 12:00 local time. -/
def c3SundayNoon : Int := 10 * msPerDay + 43200000

/-- Wednesday 1970-01-07, 12:00 local time. -/
def c3WednesdayNoon : Int := 6 * msPerDay + 43200000

/-- C3 divergence: querying on a Sunday, `startOfWeek` is the NEXT Monday
(`getDay() = 0`, so `getDate() - getDay() + 1` is tomorrow), and the video
created exactly at the current week's Monday midnight — which the claim
says is always included — is excluded and the weekly leaderboard is empty.
Querying Monday through Saturday (shown for a Wednesday) the code agrees
with the spec's window: the Monday-midnight video is included and a video
created at Sunday 23:59:59.999 before it is excluded. -/
theorem c3_sunday_week_start_bug :
    dayOfWeek c3SundayNoon = 0 ∧
    specWeekStart c3SundayNoon = 4 * msPerDay ∧
    startOfWeek c3SundayNoon = 11 * msPerDay ∧
    weeklyVideos c3Store c3SundayNoon = [] ∧
    getWeeklyLeaderboard c3Store c3SundayNoon = [] ∧
    dayOfWeek c3WednesdayNoon = 3 ∧
    startOfWeek c3WednesdayNoon = 4 * msPerDay ∧
    specWeekStart c3WednesdayNoon = 4 * msPerDay ∧
    weeklyVideos c3Store c3WednesdayNoon = [c3VideoMonday] ∧
    (getWeeklyLeaderboard c3Store c3WednesdayNoon).length = 1 ∧
    weeklyVideos c3StoreLate c3WednesdayNoon = [] := by
  decide

/-! ## Upload gate: POST /api/videos -/

/-- The multer-written file of a multipart upload request (`req.file`). -/
structure UploadedFile where
  path : String
  originalname : String
  filename : String
  size : Int
deriving DecidableEq, Repr

/-- An upload request as the handler sees it: the optional written file and
the client-declared body fields.  `durationRaw` is the result of
`parseInt(req.body.duration)`, with `none` modelling `NaN` (field missing
or non-numeric). -/
structure UploadReq where
  file : Option UploadedFile
  durationRaw : Option Int
  skillCategory : Option String
  description : Option String
deriving DecidableEq, Repr

/-- The parsed `insertVideoSchema` payload. -/
structure InsertVideo where
  originalName : String
  duration : Int
  size : Int
  skillCategory : String
  description : Option String
deriving DecidableEq, Repr

/-- JavaScript `parseInt(req.body.duration) || 5000`: `NaN` and `0` are
falsy and fall back to the 5000 default, any other integer passes through. -/
def durationOrDefault (raw : Option Int) : Int :=
  match raw with
  | none => 5000
  | some d => if d = 0 then 5000 else d

/-- JavaScript `req.body.description || null`: a missing or empty string
becomes null. -/
def descriptionOrNull (d : Option String) : Option String :=
  match d with
  | none => none
  | some s => if s = "" then none else some s

/-- Embeds `insertVideoSchema.parse` (zod via drizzle-zod):
`skillCategory` is a required (notNull) text column, so a missing value
throws a validation error; the remaining fields come from the written file
and the defaulted duration. -/
def parseInsertVideo (req : UploadReq) (f : UploadedFile) : Option InsertVideo :=
  match req.skillCategory with
  | none => none
  | some sc => some
    { originalName := f.originalname
      duration := durationOrDefault req.durationRaw
      size := f.size
      skillCategory := sc
      description := descriptionOrNull req.description }

/-- The server's response to `POST /api/videos`: 201 with the created
video, or 400 with an error message. -/
inductive UploadResponse where
  | created (v : Video)
  | badRequest (msg : String)
deriving DecidableEq, Repr

/-- Whether the response is an error response. -/
def UploadResponse.isError : UploadResponse → Bool
  | .created _ => false
  | .badRequest _ => true

/-- Server-side state the upload handler touches: video records and the
files present in the uploads directory. -/
structure ServerState where
  videos : List Video
  files : List String
deriving DecidableEq, Repr

/-- Embeds `fs.unlinkSync(path)` on the uploads directory. -/
def unlinkFile (files : List String) (path : String) : List String :=
  files.filter (fun p => !(p == path))

/-- Embeds the `POST /api/videos` handler (`src/server/routes.ts`).
Multer has already written `req.file` (when present) into the uploads
directory before the handler runs.  The handler rejects when no file was
sent; parses the body through `insertVideoSchema` (a thrown validation
error reaches the catch block, which unlinks the uploaded file); rejects
durations above 5000 ms, unlinking the file; then persists via
`storage.createVideo` — `persistOk` models whether that call succeeds
(on a rejection the catch block unlinks the file), `newId` and `now`
model `randomUUID()` and `new Date()` inside `createVideo`. -/
def handleUpload (st : ServerState) (req : UploadReq) (userId : String)
    (persistOk : Bool) (newId : String) (now : Int) :
    UploadResponse × ServerState :=
  match req.file with
  | none => (.badRequest "No video file provided", st)
  | some f =>
    match parseInsertVideo req f with
    | none =>
      (.badRequest "validation failed",
       { st with files := unlinkFile st.files f.path })
    | some data =>
      if 5000 < data.duration then
        (.badRequest "Video must be 5 seconds or less",
         { st with files := unlinkFile st.files f.path })
      else if persistOk then
        let video : Video :=
          { id := newId, userId := userId, filename := f.filename,
            originalName := data.originalName, duration := data.duration,
            size := data.size, skillCategory := data.skillCategory,
            description := data.description, createdAt := now }
        (.created video, { st with videos := st.videos ++ [video] })
      else
        (.badRequest "Upload failed",
         { st with files := unlinkFile st.files f.path })

/-- C6: a declared duration of 5001 ms is rejected with the 400 duration
error and 5000 ms is accepted; and whenever the handler returns an error
after a file was written (schema validation failure, duration failure, or
persistence failure), the uploaded file is no longer in storage and no
video record was added. -/
theorem c6_upload_gate (st : ServerState) (req : UploadReq) (userId : String)
    (persistOk : Bool) (newId : String) (now : Int) (f : UploadedFile)
    (hf : req.file = some f) :
    (req.durationRaw = some 5001 →
      (handleUpload st req userId persistOk newId now).1.isError) ∧
    (req.durationRaw = some 5001 → req.skillCategory.isSome →
      (handleUpload st req userId persistOk newId now).1
        = .badRequest "Video must be 5 seconds or less") ∧
    (req.durationRaw = some 5000 → req.skillCategory.isSome → persistOk →
      ∃ v, (handleUpload st req userId persistOk newId now).1 = .created v) ∧
    ((handleUpload st req userId persistOk newId now).1.isError →
      f.path ∉ (handleUpload st req userId persistOk newId now).2.files ∧
      (handleUpload st req userId persistOk newId now).2.videos = st.videos) := by
  obtain ⟨file, durationRaw, skillCategory, description⟩ := req
  simp only at hf
  subst hf
  refine ⟨?_, ?_, ?_, ?_⟩
  · intro hd
    subst hd
    cases skillCategory with
    | none => simp [handleUpload, parseInsertVideo, UploadResponse.isError]
    | some sc =>
      simp [handleUpload, parseInsertVideo, durationOrDefault, UploadResponse.isError]
  · intro hd hsc
    obtain ⟨sc, rfl⟩ := Option.isSome_iff_exists.mp hsc
    subst hd
    simp [handleUpload, parseInsertVideo, durationOrDefault]
  · intro hd hsc hp
    obtain ⟨sc, rfl⟩ := Option.isSome_iff_exists.mp hsc
    subst hd
    simp only [handleUpload, parseInsertVideo, durationOrDefault]
    simp [hp]
  · cases skillCategory with
    | none =>
      intro _
      constructor
      · simp [handleUpload, parseInsertVideo, unlinkFile, List.mem_filter]
      · simp [handleUpload, parseInsertVideo]
    | some sc =>
      by_cases hdur : 5000 < durationOrDefault durationRaw
      · intro _
        constructor
        · simp [handleUpload, parseInsertVideo, hdur, unlinkFile, List.mem_filter]
        · simp [handleUpload, parseInsertVideo, hdur]
      · cases persistOk with
        | true =>
          intro herr
          simp [handleUpload, parseInsertVideo, hdur, UploadResponse.isError] at herr
        | false =>
          intro _
          constructor
          · simp [handleUpload, parseInsertVideo, hdur, unlinkFile, List.mem_filter]
          · simp [handleUpload, parseInsertVideo, hdur]

/-- C10: a missing, non-numeric, or zero declared duration is defaulted to
5000 ms, so such an upload passes the duration gate and — when the other
validations pass and persistence succeeds — a video record with duration
exactly 5000 is created, rather than the request being rejected for a
missing field. -/
theorem c10_duration_default (st : ServerState) (req : UploadReq)
    (userId newId : String) (now : Int) (f : UploadedFile) (sc : String)
    (hf : req.file = some f) (hsc : req.skillCategory = some sc)
    (hd : req.durationRaw = none ∨ req.durationRaw = some 0) :
    (handleUpload st req userId true newId now).1
      = .created { id := newId, userId := userId, filename := f.filename,
                   originalName := f.originalname, duration := 5000,
                   size := f.size, skillCategory := sc,
                   description := descriptionOrNull req.description,
                   createdAt := now } ∧
    (handleUpload st req userId true newId now).2.videos
      = st.videos ++ [{ id := newId, userId := userId, filename := f.filename,
                        originalName := f.originalname, duration := 5000,
                        size := f.size, skillCategory := sc,
                        description := descriptionOrNull req.description,
                        createdAt := now }] := by
  obtain ⟨file, durationRaw, skillCategory, description⟩ := req
  simp only at hf hsc hd
  subst hf
  subst hsc
  rcases hd with hd | hd <;> subst hd <;>
    simp [handleUpload, parseInsertVideo, durationOrDefault]

def uploadFile0 : UploadedFile := ⟨"/uploads/123.mp4", "clip.mp4", "123.mp4", 1000⟩

def uploadReq5001 : UploadReq := ⟨some uploadFile0, some 5001, some "juggling", none⟩

def uploadReq5000 : UploadReq := ⟨some uploadFile0, some 5000, some "juggling", none⟩

def uploadReqNoDur : UploadReq := ⟨some uploadFile0, none, some "juggling", none⟩

def serverState0 : ServerState := ⟨[], ["/uploads/123.mp4"]⟩

theorem c6_witness :
    uploadReq5001.file = some uploadFile0 ∧
    (handleUpload serverState0 uploadReq5001 "u1" true "id1" 0).1.isError ∧
    (handleUpload serverState0 uploadReq5001 "u1" true "id1" 0).1
      = .badRequest "Video must be 5 seconds or less" ∧
    uploadFile0.path ∉ (handleUpload serverState0 uploadReq5001 "u1" true "id1" 0).2.files ∧
    (handleUpload serverState0 uploadReq5001 "u1" true "id1" 0).2.videos
      = serverState0.videos :=
  ⟨rfl,
   (c6_upload_gate serverState0 uploadReq5001 "u1" true "id1" 0 uploadFile0 rfl).1
     rfl,
   (c6_upload_gate serverState0 uploadReq5001 "u1" true "id1" 0 uploadFile0 rfl).2.1
     rfl rfl,
   ((c6_upload_gate serverState0 uploadReq5001 "u1" true "id1" 0 uploadFile0 rfl).2.2.2
     (by decide)).1,
   ((c6_upload_gate serverState0 uploadReq5001 "u1" true "id1" 0 uploadFile0 rfl).2.2.2
     (by decide)).2⟩

theorem c10_witness :
    uploadReqNoDur.file = some uploadFile0 ∧
    uploadReqNoDur.skillCategory = some "juggling" ∧
    (uploadReqNoDur.durationRaw = none ∨ uploadReqNoDur.durationRaw = some 0) ∧
    (handleUpload serverState0 uploadReqNoDur "u1" true "id1" 7).1
      = .created { id := "id1", userId := "u1", filename := "123.mp4",
                   originalName := "clip.mp4", duration := 5000, size := 1000,
                   skillCategory := "juggling", description := none,
                   createdAt := 7 } :=
  ⟨rfl, rfl, Or.inl rfl,
   (c10_duration_default serverState0 uploadReqNoDur "u1" "id1" 7 uploadFile0
     "juggling" rfl rfl (Or.inl rfl)).1⟩

/-! ## C8: trim progress reporting (client, `src/client/src/lib/ffmpeg.ts`) -/

/-- The progress percentages `trimWithFFmpeg` reports in order: 10 (loading
FFmpeg), 30 (processing), 60 (trimming), 85 (finalizing), 100 (complete). -/
def ffmpegProgress : List Nat := [10, 30, 60, 85, 100]

/-- The progress percentages `enhancedFallbackTrim` reports on its success
path, in order: 25 (method setup), 40 (capture setup), 60 (recording),
90 (finalizing), 100 (complete). -/
def fallbackProgress : List Nat := [25, 40, 60, 90, 100]

/-- How the fast FFmpeg path ends: success (all five updates emitted), or
failure after its first `k` updates — any step can fail (a CDN load error,
a write/exec error) and the 10-second `Promise.race` timeout can fire at
any point. -/
inductive FastPathOutcome where
  | success
  | failAfter (k : Nat)
deriving DecidableEq, Repr

/-- The sequence of progress values `trimVideo` reports through
`onProgress`: 5 (initializing), then the fast path's updates; if the fast
path fails or times out after `k` updates, the fallback path's first `j`
updates follow (`j = 5` when the fallback completes).  Updates the
abandoned fast-path task may emit concurrently after the timeout are not
modelled; including them could only add further non-monotone
interleavings. -/
def trimVideoProgress : FastPathOutcome → Nat → List Nat
  | .success, _ => 5 :: ffmpegProgress
  | .failAfter k, j => 5 :: (ffmpegProgress.take k ++ fallbackProgress.take j)

/-- C8 counterexample: when the fast path fails after reporting 30 and the
fallback then starts at 25, the reported sequence 5, 10, 30, 25, 40, 60,
90, 100 is not monotonically non-decreasing — the claim fails across the
fast-path-failure transition. -/
theorem c8_counterexample :
    trimVideoProgress (.failAfter 2) 5 = [5, 10, 30, 25, 40, 60, 90, 100] ∧
    ¬ List.Chain' (· ≤ ·) (trimVideoProgress (.failAfter 2) 5) := by
  refine ⟨by decide, ?_⟩
  norm_num [trimVideoProgress, ffmpegProgress, fallbackProgress, List.chain'_cons]

/-- C8 amended: each strategy's own progress sequence is monotonically
non-decreasing and stays within 0–100 — the fast path's trace (with the
initial 5) and the fallback's trace — and the end-to-end sequence is
monotone whenever the fast path succeeds; only across a fast-path-failure
transition can the reported progress decrease. -/
theorem c8_per_strategy_monotone :
    List.Chain' (· ≤ ·) (5 :: ffmpegProgress) ∧
    List.Chain' (· ≤ ·) fallbackProgress ∧
    (∀ j, List.Chain' (· ≤ ·) (trimVideoProgress .success j)) ∧
    (∀ x ∈ 5 :: ffmpegProgress, x ≤ 100) ∧
    (∀ x ∈ fallbackProgress, x ≤ 100) := by
  have h1 : List.Chain' (· ≤ ·) (5 :: ffmpegProgress) := by
    norm_num [ffmpegProgress, List.chain'_cons]
  refine ⟨h1, ?_, fun j => h1, by decide, by decide⟩
  norm_num [fallbackProgress, List.chain'_cons]

theorem c8_witness :
    (5 ∈ 5 :: ffmpegProgress) ∧ 5 ≤ 100 ∧ (25 ∈ fallbackProgress) ∧ 25 ≤ 100 :=
  ⟨by decide, c8_per_strategy_monotone.2.2.2.1 5 (by decide), by decide,
   c8_per_strategy_monotone.2.2.2.2 25 (by decide)⟩

end SkillArena
